import Mathlib

/- Shallow embedding of the nah controller runtime: pkg/runtime/cached.go,
   pkg/runtime/sharedhandler.go, the router HandlerSet and the backend
   interface.  Pure functions become Lean functions; stateful code becomes
   explicit state passing; fallible code returns Option-shaped results. -/

/-- Go strings are modelled as lists of characters (all keys in play are ASCII,
so byte-wise and character-wise views agree). -/
abbrev Str := List Char

/-- Go strings.HasPrefix. -/
def startsWith : Str → Str → Bool
  | _, [] => true
  | [], _ :: _ => false
  | c :: cs, p :: ps => decide (c = p) && startsWith cs ps

/-- Go strings.TrimPrefix. -/
def dropMark (s p : Str) : Str :=
  if startsWith s p then s.drop p.length else s

/-- Go strings.Cut with a one-character separator: (before, after, found). -/
def goCut : Str → Char → Str × Str × Bool
  | [], _ => ([], [], false)
  | c :: cs, sep =>
    if c = sep then ([], cs, true)
    else
      let r := goCut cs sep
      (c :: r.1, r.2.1, r.2.2)

/-- Go byte-wise string ordering s < t (characters here are ASCII). -/
def lexLt : Str → Str → Bool
  | [], [] => false
  | [], _ :: _ => true
  | _ :: _, [] => false
  | a :: s1, b :: s2 => if a < b then true else if b < a then false else lexLt s1 s2

/-- Go error values as far as the claims need them: the ErrIgnore sentinel,
a k8s NotFound status error, plain messages, fmt.Errorf-style wrapping (with
Unwrap), the named handlerError of sharedhandler.go (it has Cause but no
Unwrap, so errors.Is does not look through it). -/
inductive GoErr where
  | ignoreSentinel : GoErr
  | notFound : GoErr
  | msg : Str → GoErr
  | wrap : Str → GoErr → GoErr
  | handlerWrap : Str → GoErr → GoErr
deriving DecidableEq

/-- errors.Is(e, ErrIgnore): equality or following Unwrap. Only `wrap` carries
an Unwrap method. -/
def isIgnore : GoErr → Bool
  | .ignoreSentinel => true
  | .wrap _ e => isIgnore e
  | _ => false

/-- apierrors.IsNotFound. -/
def isNotFoundErr : GoErr → Bool
  | .notFound => true
  | _ => false

/-- schema.GroupVersionKind. -/
structure GVK where
  group : Str
  version : Str
  kind : Str
deriving DecidableEq

/-- Go map lookup over an association list. -/
def alookup {α β : Type} [DecidableEq α] : List (α × β) → α → Option β
  | [], _ => none
  | (k, v) :: rest, key => if key = k then some v else alookup rest key

/-- Go map assignment over an association list (replaces an existing key). -/
def aupdate {α β : Type} [DecidableEq α] : List (α × β) → α → β → List (α × β)
  | [], key, v => [(key, v)]
  | (k, w) :: rest, key, v =>
    if key = k then (key, v) :: rest else (k, w) :: aupdate rest key v

/-- Go map delete over an association list. -/
def aerase {α β : Type} [DecidableEq α] (l : List (α × β)) (key : α) : List (α × β) :=
  l.filter (fun p => !(decide (p.1 = key)))

/- ===== pkg/runtime/cached.go ===== -/

/-- A typed store object as the cache sees it: namespace, name, resource
version and opaque payload. -/
structure KObj where
  ns : Str
  name : Str
  rv : Str
  data : Nat
deriving DecidableEq

/-- objectKey of cached.go. -/
structure ObjKey where
  gvk : GVK
  ns : Str
  name : Str
deriving DecidableEq

/-- Decimal digit value of a character, if it is one. -/
def digitVal (c : Char) : Option Nat :=
  if '0' ≤ c ∧ c ≤ '9' then some (c.toNat - '0'.toNat) else none

/-- Value of a non-empty all-digit string. -/
def digitsToNat : Str → Option Nat
  | [] => none
  | s =>
    s.foldl
      (fun acc c =>
        match acc, digitVal c with
        | some a, some d => some (a * 10 + d)
        | _, _ => none)
      (some 0)

/-- Go strconv.Atoi: optional sign, decimal digits, must fit in int64. -/
def goAtoi (s : Str) : Option Int :=
  match s with
  | '+' :: rest =>
    match digitsToNat rest with
    | some n => if n ≤ 2 ^ 63 - 1 then some (n : Int) else none
    | none => none
  | '-' :: rest =>
    match digitsToNat rest with
    | some n => if n ≤ 2 ^ 63 then some (-(n : Int)) else none
    | none => none
  | _ =>
    match digitsToNat s with
    | some n => if n ≤ 2 ^ 63 - 1 then some (n : Int) else none
    | none => none

/-- newer of cached.go: resource-version ordering. -/
def newer (oldRV newRV : Str) : Bool :=
  if oldRV.length = newRV.length then lexLt oldRV newRV
  else
    match goAtoi oldRV with
    | none => true
    | some oldI =>
      match goAtoi newRV with
      | none => false
      | some newI => decide (oldI < newI)

/-- Result of a store read (controller-runtime client.Get). -/
inductive StoreRes where
  | ok : KObj → StoreRes
  | notFound : StoreRes
  | fail : GoErr → StoreRes
deriving DecidableEq

/-- cacheClient state: the recent (write-through) map, values carry the
insertion time. -/
structure CacheClientState where
  recent : List (ObjKey × (KObj × ℚ))
deriving DecidableEq

/-- Outcome of cacheClient.Get: the final value of the in/out object
parameter, and the returned error. -/
structure GetOut where
  obj : KObj
  err : Option GoErr
deriving DecidableEq

/-- Map a raw store result onto the in/out object (a successful Get fills the
object; a failed one leaves it as it was). -/
def storeResOut (r : StoreRes) (obj : KObj) : GetOut :=
  match r with
  | .ok o => { obj := o, err := none }
  | .notFound => { obj := obj, err := some .notFound }
  | .fail e => { obj := obj, err := some e }

/-- cacheClient.Get. `uncached` is the untriggered.Holder IsUncached flag;
`uncachedRes` / `cachedRes` are the results the two underlying stores would
give for this key; `obj` is the object value passed in. GVKForObject is
modelled as resolving (the scheme knows every kind in play). -/
def cacheClientGet (st : CacheClientState) (uncached : Bool)
    (uncachedRes cachedRes : StoreRes) (gvk : GVK) (obj : KObj) : GetOut :=
  if uncached then storeResOut uncachedRes obj
  else
    match cachedRes with
    | .fail e => { obj := obj, err := some e }
    | .ok fresh =>
      match alookup st.recent ⟨gvk, fresh.ns, fresh.name⟩ with
      | some (cobj, _) =>
        if newer fresh.rv cobj.rv then { obj := cobj, err := none }
        else { obj := fresh, err := none }
      | none => { obj := fresh, err := none }
    | .notFound =>
      match alookup st.recent ⟨gvk, obj.ns, obj.name⟩ with
      | some (cobj, _) => { obj := cobj, err := none }
      | none => { obj := obj, err := some .notFound }

/-- cacheClient.Create: on success of the underlying create, store a deep
copy of the object in the recent map (store(obj) of cached.go). -/
def cacheClientCreate (st : CacheClientState) (uncached : Bool)
    (uncachedErr createErr : Option GoErr) (obj : KObj) (gvk : GVK) (now : ℚ) :
    CacheClientState × Option GoErr :=
  if uncached then (st, uncachedErr)
  else
    match createErr with
    | some e => (st, some e)
    | none => ({ recent := aupdate st.recent ⟨gvk, obj.ns, obj.name⟩ (obj, now) }, none)

/-- isSpecialKey of cached.go: len(key) > 2 && key[0] == UNDERSCORE && key[2] == SPACE. -/
def isSpecialKey (key : Str) : Bool :=
  decide (2 < key.length) && decide (key.getD 0 ' ' = '_') && decide (key.getD 2 '_' = ' ')

/-- KeyParse of cached.go. -/
def KeyParse (key : Str) : Str × Str :=
  let c1 := goCut key ' '
  let key2 := if c1.2.2 then c1.2.1 else c1.1
  let c2 := goCut key2 '/'
  if c2.2.2 then (c2.1, c2.2.1) else ([], c2.1)

/-- keyFunc of cached.go. -/
def keyFunc (ns name : Str) : Str :=
  if ns = [] then name else ns ++ '/' :: name

/-- Trace of one controller.syncHandler dispatch: whether the object was
fetched from the cache, the object the handler was called with (none in the
outer Option when the handler was not called at all), and the returned
error. -/
structure SyncTrace where
  fetched : Bool
  handlerCall : Option (Option KObj)
  ret : Option GoErr
deriving DecidableEq

/-- controller.syncHandler. `cacheGet` gives the cache's answer for a
namespace/name; `handler` is the downstream OnChange. -/
def syncHandler (cacheGet : Str → Str → StoreRes)
    (handler : Str → Option KObj → Option GoErr) (key : Str) : SyncTrace :=
  if isSpecialKey key then
    { fetched := false, handlerCall := some none, ret := handler key none }
  else
    let p := KeyParse key
    match cacheGet p.1 p.2 with
    | .notFound => { fetched := true, handlerCall := some none, ret := handler key none }
    | .fail e => { fetched := true, handlerCall := none, ret := some e }
    | .ok o => { fetched := true, handlerCall := some (some o), ret := handler key (some o) }

/- ===== pkg/runtime/sharedhandler.go ===== -/

/-- An object as the shared handler chain sees it: whether meta.Accessor
succeeds on it, its UID, and opaque payload. -/
structure SObj where
  hasMeta : Bool
  uid : Str
  data : Nat
deriving DecidableEq

/-- handlerEntry of sharedhandler.go: a name and the handler function, which
returns the possibly-replaced object and an error. -/
structure SHEntry where
  name : Str
  fn : Option SObj → Option SObj × Option GoErr

/-- Record of one handler invocation inside SharedHandler.OnChange: the
handler's name, the object it was called with, and what it returned. -/
structure Invocation where
  name : Str
  input : Option SObj
  ret : Option SObj
  err : Option GoErr
deriving DecidableEq

/-- The object-threading step of SharedHandler.OnChange: a non-nil returned
object is assigned when its UID is non-empty or its metadata cannot be
determined; otherwise the previous object is kept. -/
def objUpdate (ret cur : Option SObj) : Option SObj :=
  match ret with
  | none => cur
  | some o => if o.hasMeta && decide (o.uid = []) then cur else some o

/-- SharedHandler.OnChange iteration: returns the invocation record and the
accumulated (non-ignored, name-tagged) error list. -/
def sharedOnChange : List SHEntry → Option SObj → List Invocation × List GoErr
  | [], _ => ([], [])
  | h :: rest, obj =>
    let r := h.fn obj
    let thisErrs : List GoErr :=
      match r.2 with
      | some e => if isIgnore e then [] else [.handlerWrap h.name e]
      | none => []
    let next := sharedOnChange rest (objUpdate r.1 obj)
    (⟨h.name, obj, r.1, r.2⟩ :: next.1, thisErrs ++ next.2)

/-- The overall error a handler chain returns: nil, the single error, or the
aggregate list (errorList.ToErr of sharedhandler.go). -/
inductive ChainResult where
  | ok : ChainResult
  | single : GoErr → ChainResult
  | multiple : List GoErr → ChainResult
deriving DecidableEq

/-- errorList.ToErr. -/
def toErr : List GoErr → ChainResult
  | [] => .ok
  | [e] => .single e
  | es => .multiple es

/-- SharedHandler.OnChange's returned error. -/
def sharedResult (hs : List SHEntry) (obj : Option SObj) : ChainResult :=
  toErr (sharedOnChange hs obj).2

/-- The error (if any) an invocation contributes to the accumulated list. -/
def invErr (r : Invocation) : Option GoErr :=
  match r.err with
  | some e => if isIgnore e then none else some (.handlerWrap r.name e)
  | none => none

/-- Amended object-threading rule, following the corrected claim's words: a
returned non-nil object replaces the threaded one, except that an object with
accessible metadata and an empty UID is ignored and the previous object is
kept. -/
def preferReturned (ret prev : Option SObj) : Option SObj :=
  match ret with
  | none => prev
  | some o => if o.hasMeta && decide (o.uid = []) then prev else some o

/-- The invocation record is chained: each handler's input is the threaded
object, starting from the initial one and updated by `preferReturned`. -/
def chainedSpec : Option SObj → List Invocation → Prop
  | _, [] => True
  | cur, r :: rest => r.input = cur ∧ chainedSpec (preferReturned r.ret r.input) rest

/- ===== router HandlerSet (part_000) ===== -/

/-- The TriggerPrefix constant of part_000. -/
def triggerMark : Str := ['_', 't', ' ']

/-- The ReplayPrefix constant of part_000. -/
def replayMark : Str := ['_', 'r', ' ']

/-- An object as the router sees it (runtime.Object), opaque payload;
toObject's deep copy is value copying. -/
structure RObj where
  data : Nat
deriving DecidableEq

/-- limiterKey of part_000. -/
structure LKey where
  key : Str
  gvk : GVK
deriving DecidableEq

/-- golang.org/x/time/rate.Limiter, as used here: limit in tokens per second,
burst, current tokens, time of last update (seconds). In Go the limiter is
created with a zero last-update time, so its first advance saturates the
bucket at burst; the model therefore starts the bucket full. -/
structure Limiter where
  limit : ℚ
  burst : Nat
  tokens : ℚ
  last : ℚ
deriving DecidableEq

/-- rate.NewLimiter. -/
def newLimiter (limit : ℚ) (burst : Nat) : Limiter :=
  { limit := limit, burst := burst, tokens := (burst : ℚ), last := 0 }

/-- Limiter.Reserve().Delay() at time `now`: advance the bucket, take one
token, delay is how long until the reservation is honoured. -/
def Limiter.reserveDelay (l : Limiter) (now : ℚ) : ℚ × Limiter :=
  let last := if now < l.last then now else l.last
  let adv := l.tokens + (now - last) * l.limit
  let capped := if (l.burst : ℚ) < adv then (l.burst : ℚ) else adv
  let tokens := capped - 1
  let delay := if tokens < 0 then -tokens / l.limit else 0
  (delay, { l with tokens := tokens, last := now })

/-- The limiter/waiting state of a HandlerSet. -/
structure HSState where
  limiters : List (LKey × Limiter)
  waiting : List LKey
deriving DecidableEq

/-- A Backend.Trigger call: gvk, key, delay. -/
structure TriggerCall where
  gvk : GVK
  key : Str
  delay : ℚ
deriving DecidableEq

/-- HandlerSet.checkDelay: returns (proceed?, new state, scheduled backoff
timer as (sleep duration, limiter key)). -/
def checkDelay (s : HSState) (gvk : GVK) (key : Str) (now : ℚ) :
    Bool × HSState × Option (ℚ × LKey) :=
  let lKey : LKey := ⟨key, gvk⟩
  if lKey ∈ s.waiting then (false, s, none)
  else
    let limit := (alookup s.limiters lKey).getD (newLimiter (1 / 5) 10)
    let r := limit.reserveDelay now
    let limiters2 := aupdate s.limiters lKey r.2
    if 0 < r.1 then
      (false, ⟨limiters2, lKey :: s.waiting⟩, some (r.1, lKey))
    else
      (true, ⟨limiters2, s.waiting⟩, none)

/-- Body of the detached goroutine checkDelay spawns: after the sleep it
removes the key from the waiting set and fires Backend.Trigger with the
replay-prefixed key and zero delay. -/
def backoffFire (s : HSState) (lKey : LKey) : HSState × TriggerCall :=
  (⟨s.limiters, s.waiting.filter (fun k => !(decide (k = lKey)))⟩,
   ⟨lKey.gvk, replayMark ++ lKey.key, 0⟩)

/-- HandlerSet.forgetBackoff. -/
def forgetBackoff (s : HSState) (gvk : GVK) (key : Str) : HSState :=
  ⟨aerase s.limiters ⟨key, gvk⟩, s.waiting⟩

/-- response.RetryAfter of part_000, as a function on the stored delay. -/
def retryAfter (cur delay : ℚ) : ℚ :=
  if cur = 0 ∨ delay < cur then delay else cur

/-- Environment a single HandlerSet.handle dispatch runs in: whether any
handler is registered for the request, the error the handler chain returns,
the optional onError callback (it also receives a nil error at the final
return), the result of save.save, the response delay after the chain ran, and
the error Backend.Trigger would return for the delayed re-enqueue. -/
structure HandleEnv where
  handles : Bool
  handlerErr : Option GoErr
  onError : Option (Option GoErr → Option GoErr)
  saveResult : Option RObj × Option GoErr
  respDelay : ℚ
  triggerErr : Option GoErr

/-- HandlerSet.handleError. -/
def handleError (env : HandleEnv) (e : Option GoErr) : Option GoErr :=
  match env.onError with
  | some f => f e
  | none => e

/-- Observable calls HandlerSet.handle makes on the trigger registry and the
backend: how many times UnregisterAndTrigger ran, how many times Trigger
(fan-out) ran, the delayed Backend.Trigger call if one was made, and whether
the handler chain was invoked. -/
structure CallTrace where
  unregisterCalls : Nat
  triggerCalls : Nat
  scheduled : Option TriggerCall
  handlersRan : Bool
deriving DecidableEq

/-- Result of HandlerSet.handle: returned object, returned error, trace. -/
structure HandleOut where
  retObj : Option RObj
  retErr : Option GoErr
  trace : CallTrace

/-- Tail of HandlerSet.handle after a positive save outcome: commit
req.Object, schedule the delayed Trigger when resp.delay > 0. -/
def handleFinish (env : HandleEnv) (gvk : GVK) (key : Str) (unreg fan : Nat) : HandleOut :=
  if 0 < env.respDelay then
    match env.triggerErr with
    | some e => ⟨none, some e, ⟨unreg, fan, some ⟨gvk, key, env.respDelay⟩, true⟩⟩
    | none => ⟨env.saveResult.1, handleError env none,
               ⟨unreg, fan, some ⟨gvk, key, env.respDelay⟩, true⟩⟩
  else
    ⟨env.saveResult.1, handleError env none, ⟨unreg, fan, none, true⟩⟩

/-- How often the trigger-registry update of HandlerSet.handle calls
UnregisterAndTrigger: once iff the object is nil. -/
def unregCount (unmodifiedObject : Option RObj) : Nat :=
  if unmodifiedObject = none then 1 else 0

/-- How often the trigger-registry update of HandlerSet.handle calls Trigger:
once iff the object is non-nil and the request is not trigger-driven. -/
def fanCount (unmodifiedObject : Option RObj) (trigger : Bool) : Nat :=
  if unmodifiedObject = none then 0 else if trigger then 0 else 1

/-- HandlerSet.handle from the trigger-registry update onward (the handler
chain either did not error or its error was swallowed by the callback). -/
def handleTail (env : HandleEnv) (gvk : GVK) (key : Str)
    (unmodifiedObject : Option RObj) (trigger : Bool) : HandleOut :=
  let unreg : Nat := unregCount unmodifiedObject
  let fan : Nat := fanCount unmodifiedObject trigger
  if env.handles then
    match env.saveResult.2 with
    | some e =>
      match handleError env (some e) with
      | some e2 => ⟨none, some e2, ⟨unreg, fan, none, true⟩⟩
      | none => handleFinish env gvk key unreg fan
    | none => handleFinish env gvk key unreg fan
  else
    ⟨unmodifiedObject, handleError env none, ⟨unreg, fan, none, false⟩⟩

/-- HandlerSet.handle. req.Object starts as a deep copy of
unmodifiedObject; req.FromTrigger is `trigger`. -/
def handle (env : HandleEnv) (gvk : GVK) (key : Str)
    (unmodifiedObject : Option RObj) (trigger : Bool) : HandleOut :=
  if env.handles then
    match env.handlerErr with
    | some e =>
      match handleError env (some e) with
      | some e2 => ⟨none, some e2, ⟨0, 0, none, true⟩⟩
      | none => handleTail env gvk key unmodifiedObject trigger
    | none => handleTail env gvk key unmodifiedObject trigger
  else handleTail env gvk key unmodifiedObject trigger

/-- Whether the handler-chain error (after the error callback) makes
HandlerSet.handle return before the trigger-registry update. -/
def chainAborts (env : HandleEnv) : Bool :=
  env.handles &&
    match env.handlerErr with
    | some e => (handleError env (some e)).isSome
    | none => false

/-- Key-prefix decoding at the top of HandlerSet.onChange:
(fromTrigger, fromReplay, stripped key). -/
def decodeKey (key : Str) : Bool × Bool × Str :=
  let p1 := startsWith key triggerMark
  let key1 := dropMark key triggerMark
  let p2 := startsWith key1 replayMark
  let key2 := dropMark key1 replayMark
  (if p2 then false else p1, p2, key2)

/-- Whether onChange consults the rate-limit gate for this key. -/
def consultsGate (key : Str) : Bool :=
  !(decodeKey key).2.1 && !(decodeKey key).1

/-- Result of the fresh backend Get inside onChange. -/
inductive RGet where
  | found : RObj → RGet
  | notFound : RGet
  | fail : GoErr → RGet
deriving DecidableEq

/-- Environment of one onChange dispatch: the scheme.New outcome, the fresh
backend Get outcome, and the handle environment. -/
structure OnChangeEnv where
  schemeNewErr : Option GoErr
  backendGet : RGet
  hEnv : HandleEnv

/-- Observable outcome of HandlerSet.onChange. `request` is
(req.Object, req.FromTrigger) when a request was constructed. -/
structure OnChangeOut where
  retObj : Option RObj
  retErr : Option GoErr
  state : HSState
  timer : Option (ℚ × LKey)
  gateConsulted : Bool
  gateBlocked : Bool
  request : Option (Option RObj × Bool)
  trace : CallTrace

/-- The trace of a dispatch that never reached handle. -/
def emptyTrace : CallTrace := ⟨0, 0, none, false⟩

/-- HandlerSet.onChange. -/
def onChange (env : OnChangeEnv) (s : HSState) (gvk : GVK) (key : Str)
    (runtimeObject : Option RObj) (now : ℚ) : OnChangeOut :=
  let d := decodeKey key
  let fromTrigger := d.1
  let fromReplay := d.2.1
  let key2 := d.2.2
  let gate := !fromReplay && !fromTrigger
  let gres := if gate then checkDelay s gvk key2 now else (true, s, none)
  if gate && !gres.1 then
    { retObj := runtimeObject, retErr := none, state := gres.2.1, timer := gres.2.2,
      gateConsulted := gate, gateBlocked := true, request := none, trace := emptyTrace }
  else
    match env.schemeNewErr with
    | some e =>
      { retObj := none, retErr := some e, state := gres.2.1, timer := gres.2.2,
        gateConsulted := gate, gateBlocked := false, request := none, trace := emptyTrace }
    | none =>
      match env.backendGet with
      | .fail e =>
        { retObj := none, retErr := some e, state := gres.2.1, timer := gres.2.2,
          gateConsulted := gate, gateBlocked := false, request := none, trace := emptyTrace }
      | .found o =>
        let hout := handle env.hEnv gvk key2 (some o) fromTrigger
        { retObj := hout.retObj, retErr := hout.retErr, state := gres.2.1, timer := gres.2.2,
          gateConsulted := gate, gateBlocked := false,
          request := some (some o, fromTrigger), trace := hout.trace }
      | .notFound =>
        let s2 := if runtimeObject = none then forgetBackoff gres.2.1 gvk key2 else gres.2.1
        let hout := handle env.hEnv gvk key2 runtimeObject fromTrigger
        { retObj := hout.retObj, retErr := hout.retErr, state := s2, timer := gres.2.2,
          gateConsulted := gate, gateBlocked := false,
          request := some (runtimeObject, fromTrigger), trace := hout.trace }

/- ===== concrete instances used by counterexamples and witnesses ===== -/

/-- ASCII letter test, written from the claim's words (the code has no such
check; this is the claim-level side of the special-key shape). -/
def isAsciiLetter (c : Char) : Bool :=
  ('a' ≤ c && c ≤ 'z') || ('A' ≤ c && c ≤ 'Z')

/-- A concrete kind. -/
def gvk0 : GVK := ⟨['g'], ['v'], ['k']⟩

/-- A dispatch environment with no registered handlers and no callbacks. -/
def envBenign : HandleEnv :=
  { handles := false, handlerErr := none, onError := none,
    saveResult := (none, none), respDelay := 0, triggerErr := none }

/-- A dispatch environment whose handler chain errors with no onError
callback installed, so the error aborts the dispatch. -/
def envAbort : HandleEnv :=
  { handles := true, handlerErr := some (.msg ['x']), onError := none,
    saveResult := (none, none), respDelay := 0, triggerErr := none }

/-- An onChange environment whose fresh backend Get reports not-found. -/
def envOCnf : OnChangeEnv :=
  { schemeNewErr := none, backendGet := .notFound, hEnv := envBenign }

/-- An onChange environment whose fresh backend Get finds the object. -/
def envOCfound : OnChangeEnv :=
  { schemeNewErr := none, backendGet := .found ⟨3⟩, hEnv := envBenign }

/-- The empty limiter state. -/
def hs0 : HSState := ⟨[], []⟩

/-- A cache answering not-found for every key. -/
def cgNF : Str → Str → StoreRes := fun _ _ => StoreRes.notFound

/-- A downstream handler that always succeeds. -/
def hOk : Str → Option KObj → Option GoErr := fun _ _ => none

/-- Two shared handlers: the first returns a fresh object with accessible
metadata and an empty UID, the second records what it is passed. -/
def hsC9 : List SHEntry :=
  [⟨['h', '1'], fun _ => (some ⟨true, [], 5⟩, none)⟩,
   ⟨['h', '2'], fun _ => (none, none)⟩]

/-- A recent-cache state holding one entry for (gvk0, n, m). -/
def stC3 : CacheClientState :=
  ⟨[(⟨gvk0, ['n'], ['m']⟩, (⟨['n'], ['m'], ['1'], 5⟩, 0))]⟩

/- ===== helper lemmas ===== -/

theorem alookup_aupdate {α β : Type} [DecidableEq α] (l : List (α × β)) (k : α) (v : β) :
    alookup (aupdate l k v) k = some v := by
  induction l with
  | nil => simp [aupdate, alookup]
  | cons p rest ih =>
    by_cases h : k = p.1
    · simp [aupdate, alookup, h]
    · simp [aupdate, alookup, h, ih]

theorem goCut_of_not_mem (l : Str) (sep : Char) (h : sep ∉ l) :
    goCut l sep = (l, [], false) := by
  induction l with
  | nil => rfl
  | cons c rest ih =>
    have hc : ¬c = sep := fun hcs => h (hcs ▸ List.mem_cons_self c rest)
    have hr : sep ∉ rest := fun hm => h (List.mem_cons_of_mem c hm)
    simp [goCut, hc, ih hr]

theorem goCut_append (l1 l2 : Str) (sep : Char) (h : sep ∉ l1) :
    goCut (l1 ++ sep :: l2) sep = (l1, l2, true) := by
  induction l1 with
  | nil => simp [goCut]
  | cons c rest ih =>
    have hc : ¬c = sep := fun hcs => h (hcs ▸ List.mem_cons_self c rest)
    have hr : sep ∉ rest := fun hm => h (List.mem_cons_of_mem c hm)
    simp [goCut, hc, ih hr]

/- ===== C7 ===== -/

/-- Claim C7: the resource-version ordering newer(oldRV, newRV) holds exactly
when the strings have equal length and oldRV is lexicographically smaller, or
the lengths differ and both parse as integers with the old one smaller, or
the lengths differ and oldRV does not parse; and it never holds when the
lengths differ, oldRV parses and newRV does not. -/
theorem newer_characterization (o n : Str) :
    (newer o n = true ↔
      (o.length = n.length ∧ lexLt o n = true) ∨
      (o.length ≠ n.length ∧ ∃ a b : Int, goAtoi o = some a ∧ goAtoi n = some b ∧ a < b) ∨
      (o.length ≠ n.length ∧ goAtoi o = none)) ∧
    (o.length ≠ n.length → goAtoi o ≠ none → goAtoi n = none → newer o n = false) := by
  constructor
  · unfold newer
    by_cases hl : o.length = n.length
    · simp [hl]
    · cases ho : goAtoi o <;> cases hn : goAtoi n <;> simp [hl, ho, hn]
  · intro hl ho hn
    unfold newer
    cases hor : goAtoi o with
    | none => exact absurd hor ho
    | some a => simp [hl, hor, hn]

/-- Witness for C7 at oldRV = "10", newRV = "x": lengths differ, the old
version parses, the new one does not, so newer is false. -/
theorem newer_characterization_witness : newer (['1', '0']) (['x']) = false :=
  (newer_characterization (['1', '0']) (['x'])).2 (by decide) (by decide) (by decide)

/- ===== C4 ===== -/

/-- Counterexample for C4 as stated: RetryAfter(0) is not a no-op; on a
response whose stored delay is 5 it resets the delay to 0. -/
theorem retryAfter_zero_resets : retryAfter 5 0 = 0 ∧ ¬retryAfter 5 0 = 5 := by
  constructor
  · simp [retryAfter]
  · simp [retryAfter]

/-- Claim C4, amended: RetryAfter(d1) then RetryAfter(d2) with both positive
stores min(d1,d2); RetryAfter(0) leaves a zero stored delay at zero but
resets a positive stored delay to zero; and handle calls the delayed
Backend.Trigger(gvk, key, delay) exactly when the response's final delay is
strictly positive (and handlers ran). -/
theorem retryAfter_spec :
    (∀ d1 d2 : ℚ, 0 < d1 → 0 < d2 → retryAfter (retryAfter 0 d1) d2 = min d1 d2) ∧
    retryAfter 0 0 = 0 ∧
    (∀ d : ℚ, 0 < d → retryAfter d 0 = 0) ∧
    (∀ env gvk key obj tr t, (handle env gvk key obj tr).trace.scheduled = some t →
      env.handles = true ∧ 0 < env.respDelay ∧ t = ⟨gvk, key, env.respDelay⟩) ∧
    (∀ env gvk key obj tr, env.handles = true → 0 < env.respDelay →
      chainAborts env = false → env.saveResult.2 = none →
      (handle env gvk key obj tr).trace.scheduled = some ⟨gvk, key, env.respDelay⟩) := by
  refine ⟨?_, by simp [retryAfter], ?_, ?_, ?_⟩
  · intro d1 d2 h1 h2
    have hne : ¬d1 = 0 := ne_of_gt h1
    unfold retryAfter
    rcases lt_trichotomy d2 d1 with h | h | h
    · simp [hne, h, min_eq_right (le_of_lt h)]
    · simp [hne, h, min_eq_left (le_of_eq h.symm)]
    · simp [hne, not_lt.mpr (le_of_lt h), min_eq_left (le_of_lt h)]
  · intro d hd
    have : d = 0 ∨ (0 : ℚ) < d := Or.inr hd
    simp [retryAfter, hd]
  · intro env gvk key obj tr t h
    unfold handle handleTail handleFinish at h
    by_cases hh : env.handles
    · simp only [hh, if_true] at h
      constructor
      · exact hh
      cases he : env.handlerErr with
      | some e =>
        simp only [he] at h
        cases hc : handleError env (some e) with
        | some e2 => simp [hc] at h
        | none =>
          simp only [hc] at h
          cases hs : env.saveResult.2 with
          | some se =>
            simp only [hs, hh, if_true] at h
            cases hc2 : handleError env (some se) with
            | some e3 => simp [hc2] at h
            | none =>
              simp only [hc2] at h
              by_cases hd : 0 < env.respDelay
              · simp only [hd, if_true] at h
                cases ht : env.triggerErr <;> simp only [ht] at h <;>
                  exact ⟨hd, by injection h with h2; exact h2.symm⟩
              · simp [hd] at h
          | none =>
            simp only [hs, hh, if_true] at h
            by_cases hd : 0 < env.respDelay
            · simp only [hd, if_true] at h
              cases ht : env.triggerErr <;> simp only [ht] at h <;>
                exact ⟨hd, by injection h with h2; exact h2.symm⟩
            · simp [hd] at h
      | none =>
        simp only [he] at h
        cases hs : env.saveResult.2 with
        | some se =>
          simp only [hs, hh, if_true] at h
          cases hc2 : handleError env (some se) with
          | some e3 => simp [hc2] at h
          | none =>
            simp only [hc2] at h
            by_cases hd : 0 < env.respDelay
            · simp only [hd, if_true] at h
              cases ht : env.triggerErr <;> simp only [ht] at h <;>
                exact ⟨hd, by injection h with h2; exact h2.symm⟩
            · simp [hd] at h
        | none =>
          simp only [hs, hh, if_true] at h
          by_cases hd : 0 < env.respDelay
          · simp only [hd, if_true] at h
            cases ht : env.triggerErr <;> simp only [ht] at h <;>
              exact ⟨hd, by injection h with h2; exact h2.symm⟩
          · simp [hd] at h
    · simp [hh] at h
  · intro env gvk key obj tr hh hd ha hs
    unfold chainAborts at ha
    unfold handle handleTail handleFinish
    simp only [hh, if_true]
    cases he : env.handlerErr with
    | some e =>
      simp only [he, hh, Bool.true_and] at ha ⊢
      cases hc : handleError env (some e) with
      | some e2 => rw [hc] at ha; simp at ha
      | none =>
        simp only [hc, hs, hd, if_true]
        cases ht : env.triggerErr <;> rfl
    | none =>
      simp only [hs, hd, if_true]
      cases ht : env.triggerErr <;> rfl

/-- Witness for C4 at d1 = 2, d2 = 3 and at the scheduling conjunct's
hypotheses being dischargeable. -/
theorem retryAfter_spec_witness : retryAfter (retryAfter 0 2) 3 = min 2 3 :=
  retryAfter_spec.1 2 3 (by norm_num) (by norm_num)

/- ===== C10 ===== -/

/-- Claim C10: for every namespace and non-empty name free of slash and
space, KeyParse inverts keyFunc, and a control marker of the form
UNDERSCORE-char-SPACE in front of the key leaves the parse unchanged. -/
theorem keyParse_roundtrip (ns name : Str) (c : Char)
    (hns1 : '/' ∉ ns) (hns2 : ' ' ∉ ns) (hn1 : '/' ∉ name) (hn2 : ' ' ∉ name)
    (hne : name ≠ []) (hc : c ≠ ' ') :
    KeyParse (keyFunc ns name) = (ns, name) ∧
    KeyParse ('_' :: c :: ' ' :: keyFunc ns name) = KeyParse (keyFunc ns name) := by
  have hspace : ' ' ∉ keyFunc ns name := by
    unfold keyFunc
    by_cases h : ns = []
    · simpa [h] using hn2
    · simp only [h, if_false]
      intro hm
      rcases List.mem_append.mp hm with hm1 | hm2
      · exact hns2 hm1
      · rcases List.mem_cons.mp hm2 with hm3 | hm4
        · exact absurd hm3.symm (by decide)
        · exact hn2 hm4
  constructor
  · unfold KeyParse
    rw [goCut_of_not_mem _ _ hspace]
    by_cases h : ns = []
    · simp only [keyFunc, h, if_true] at *
      simp [goCut_of_not_mem _ _ hn1]
    · simp only [keyFunc, h, if_false] at *
      simp [goCut_append _ _ _ hns1]
  · unfold KeyParse
    have hpre : goCut ('_' :: c :: ' ' :: keyFunc ns name) ' ' =
        (['_', c], keyFunc ns name, true) := by
      have : ('_' :: c :: ' ' :: keyFunc ns name) = ['_', c] ++ ' ' :: keyFunc ns name := rfl
      rw [this]
      refine goCut_append _ _ _ ?_
      intro hm
      rcases List.mem_cons.mp hm with h1 | h2
      · exact absurd h1.symm (by decide)
      · rcases List.mem_cons.mp h2 with h3 | h4
        · exact hc h3.symm
        · simp at h4
    rw [hpre, goCut_of_not_mem _ _ hspace]
    simp

/-- Witness for C10 at ns = "a", name = "b", marker character t. -/
theorem keyParse_roundtrip_witness :
    KeyParse (keyFunc (['a']) (['b'])) = (['a'], ['b']) ∧
    KeyParse ('_' :: 't' :: ' ' :: keyFunc (['a']) (['b'])) =
      KeyParse (keyFunc (['a']) (['b'])) :=
  keyParse_roundtrip (['a']) (['b']) 't' (by decide) (by decide) (by decide)
    (by decide) (by decide) (by decide)

/- ===== C5 ===== -/

/-- Counterexample for C5 as stated: key "_1 a" is treated as special — the
controller bypasses the fetch and calls the handler with a nil object — yet
its marker character is the digit 1, not an ASCII letter. -/
theorem isSpecialKey_not_letter_only :
    isSpecialKey (['_', '1', ' ', 'a']) = true ∧
    isAsciiLetter ((['_', '1', ' ', 'a']).getD 1 ' ') = false ∧
    (syncHandler cgNF hOk (['_', '1', ' ', 'a'])).fetched = false ∧
    (syncHandler cgNF hOk (['_', '1', ' ', 'a'])).handlerCall = some none := by
  refine ⟨by decide, by decide, ?_, ?_⟩ <;> rfl

/-- Claim C5, amended: syncHandler bypasses the fetch and calls the handler
with a nil object exactly for keys longer than two characters whose first
character is an underscore and whose third is a space — the middle character
may be anything, not only an ASCII letter. For every other key it parses the
key, fetches from the cache, calls the handler with nil on not-found, with
the object on success, and returns any other Get error without calling the
handler. -/
theorem syncHandler_spec (cg : Str → Str → StoreRes)
    (h : Str → Option KObj → Option GoErr) (key : Str) :
    (isSpecialKey key = true ↔ ∃ c rest, key = '_' :: c :: ' ' :: rest) ∧
    (isSpecialKey key = true →
      syncHandler cg h key = ⟨false, some none, h key none⟩) ∧
    (isSpecialKey key = false →
      (cg (KeyParse key).1 (KeyParse key).2 = .notFound →
        syncHandler cg h key = ⟨true, some none, h key none⟩) ∧
      (∀ o, cg (KeyParse key).1 (KeyParse key).2 = .ok o →
        syncHandler cg h key = ⟨true, some (some o), h key (some o)⟩) ∧
      (∀ e, cg (KeyParse key).1 (KeyParse key).2 = .fail e →
        syncHandler cg h key = ⟨true, none, some e⟩)) := by
  refine ⟨?_, ?_, ?_⟩
  · match key with
    | [] => simp [isSpecialKey]
    | [a] => simp [isSpecialKey]
    | [a, b] => simp [isSpecialKey]
    | a :: b :: c :: rest =>
      have hred : isSpecialKey (a :: b :: c :: rest) =
          (decide (a = '_') && decide (c = ' ')) := by simp [isSpecialKey]
      rw [hred]
      constructor
      · intro hb
        simp only [Bool.and_eq_true, decide_eq_true_eq] at hb
        exact ⟨b, rest, by rw [hb.1, hb.2]⟩
      · rintro ⟨c2, rest2, heq⟩
        injection heq with e1 e2
        injection e2 with e3 e4
        injection e4 with e5 e6
        subst e1; subst e5
        simp
  · intro hs
    unfold syncHandler
    rw [hs]
    rfl
  · intro hs
    refine ⟨?_, ?_, ?_⟩
    · intro hcg
      unfold syncHandler
      rw [hs]
      simp [hcg]
    · intro o hcg
      unfold syncHandler
      rw [hs]
      simp [hcg]
    · intro e hcg
      unfold syncHandler
      rw [hs]
      simp [hcg]

/-- Witness for C5 at the special key "_t a" and the plain key "a". -/
theorem syncHandler_spec_witness :
    syncHandler cgNF hOk (['_', 't', ' ', 'a']) = ⟨false, some none, none⟩ ∧
    syncHandler cgNF hOk (['a']) = ⟨true, some none, none⟩ :=
  ⟨(syncHandler_spec cgNF hOk (['_', 't', ' ', 'a'])).2.1 (by decide),
   ((syncHandler_spec cgNF hOk (['a'])).2.2 (by decide)).1 (by decide)⟩

/- ===== C3 ===== -/

/-- Claim C3: cacheClient.Get on a non-uncached object returns the recent
entry with a nil error when the cached store reports not-found but the recent
map has an entry for the code's (gvk, namespace, name) cache key; returns the
recent entry when the store succeeds but its resource version is older than
the recent one; otherwise returns the store's result; and a Get issued right
after a successful Create for the same (namespace, name) finds the deep copy
Create stored, even when the informer-backed store still reports
not-found. -/
theorem cacheClientGet_spec (st : CacheClientState) (ur : StoreRes) (gvk : GVK) :
    (∀ obj cobj t, alookup st.recent ⟨gvk, obj.ns, obj.name⟩ = some (cobj, t) →
      cacheClientGet st false ur .notFound gvk obj = ⟨cobj, none⟩) ∧
    (∀ obj fresh cobj t, alookup st.recent ⟨gvk, fresh.ns, fresh.name⟩ = some (cobj, t) →
      newer fresh.rv cobj.rv = true →
      cacheClientGet st false ur (.ok fresh) gvk obj = ⟨cobj, none⟩) ∧
    (∀ obj fresh cobj t, alookup st.recent ⟨gvk, fresh.ns, fresh.name⟩ = some (cobj, t) →
      newer fresh.rv cobj.rv = false →
      cacheClientGet st false ur (.ok fresh) gvk obj = ⟨fresh, none⟩) ∧
    (∀ obj fresh, alookup st.recent ⟨gvk, fresh.ns, fresh.name⟩ = none →
      cacheClientGet st false ur (.ok fresh) gvk obj = ⟨fresh, none⟩) ∧
    (∀ obj, alookup st.recent ⟨gvk, obj.ns, obj.name⟩ = none →
      cacheClientGet st false ur .notFound gvk obj = ⟨obj, some .notFound⟩) ∧
    (∀ obj e, cacheClientGet st false ur (.fail e) gvk obj = ⟨obj, some e⟩) ∧
    (∀ created now ue obj2, obj2.ns = created.ns → obj2.name = created.name →
      (cacheClientCreate st false ue none created gvk now).2 = none ∧
      cacheClientGet (cacheClientCreate st false ue none created gvk now).1 false ur
        .notFound gvk obj2 = ⟨created, none⟩) := by
  refine ⟨?_, ?_, ?_, ?_, ?_, ?_, ?_⟩
  · intro obj cobj t hl
    simp [cacheClientGet, hl]
  · intro obj fresh cobj t hl hn
    simp [cacheClientGet, hl, hn]
  · intro obj fresh cobj t hl hn
    simp [cacheClientGet, hl, hn]
  · intro obj fresh hl
    simp [cacheClientGet, hl]
  · intro obj hl
    simp [cacheClientGet, hl]
  · intro obj e
    simp [cacheClientGet]
  · intro created now ue obj2 hns hname
    refine ⟨rfl, ?_⟩
    have hl : alookup (aupdate st.recent (⟨gvk, created.ns, created.name⟩ : ObjKey)
        (created, now)) ⟨gvk, obj2.ns, obj2.name⟩ = some (created, now) := by
      rw [hns, hname]
      exact alookup_aupdate st.recent _ _
    simp [cacheClientCreate, cacheClientGet, hl]

/-- Witness for C3 at a one-entry recent map: a not-found read for (n, m)
returns the cached copy, and create-then-get returns the created object. -/
theorem cacheClientGet_spec_witness :
    cacheClientGet stC3 false .notFound .notFound gvk0 ⟨['n'], ['m'], [], 0⟩ =
      ⟨⟨['n'], ['m'], ['1'], 5⟩, none⟩ ∧
    cacheClientGet (cacheClientCreate stC3 false none none ⟨['p'], ['q'], ['2'], 7⟩
        gvk0 1).1 false .notFound .notFound gvk0 ⟨['p'], ['q'], [], 0⟩ =
      ⟨⟨['p'], ['q'], ['2'], 7⟩, none⟩ :=
  ⟨(cacheClientGet_spec stC3 .notFound gvk0).1 ⟨['n'], ['m'], [], 0⟩
      ⟨['n'], ['m'], ['1'], 5⟩ 0 (by decide),
   ((cacheClientGet_spec stC3 .notFound gvk0).2.2.2.2.2.2 ⟨['p'], ['q'], ['2'], 7⟩ 1 none
      ⟨['p'], ['q'], [], 0⟩ rfl rfl).2⟩

/- ===== C8 / C9 helper lemmas ===== -/

theorem sharedOnChange_names (hs : List SHEntry) (obj : Option SObj) :
    (sharedOnChange hs obj).1.map Invocation.name = hs.map SHEntry.name := by
  induction hs generalizing obj with
  | nil => rfl
  | cons h rest ih => simp [sharedOnChange, ih]

theorem sharedOnChange_errs (hs : List SHEntry) (obj : Option SObj) :
    (sharedOnChange hs obj).2 = (sharedOnChange hs obj).1.filterMap invErr := by
  induction hs generalizing obj with
  | nil => rfl
  | cons h rest ih =>
    simp only [sharedOnChange, List.filterMap_cons]
    cases he : (h.fn obj).2 with
    | none => simp [invErr, he, ih]
    | some e =>
      by_cases hi : isIgnore e
      · simp [invErr, he, hi, ih]
      · simp [invErr, he, hi, ih]

theorem objUpdate_eq_preferReturned : objUpdate = preferReturned := rfl

/- ===== C8 ===== -/

/-- Claim C8: SharedHandler.OnChange invokes every registered handler in
registration order without short-circuiting; every handler error that is not
the ErrIgnore sentinel (per errors.Is) is accumulated tagged with the
handler's name; and the returned error is nil for no accumulated error, the
single wrapped error for exactly one, and the aggregate list otherwise. -/
theorem sharedOnChange_spec (hs : List SHEntry) (obj : Option SObj) :
    ((sharedOnChange hs obj).1.map Invocation.name = hs.map SHEntry.name) ∧
    ((sharedOnChange hs obj).2 = (sharedOnChange hs obj).1.filterMap invErr) ∧
    toErr [] = ChainResult.ok ∧
    (∀ e, toErr [e] = ChainResult.single e) ∧
    (∀ e1 e2 es, toErr (e1 :: e2 :: es) = ChainResult.multiple (e1 :: e2 :: es)) ∧
    sharedResult hs obj = toErr ((sharedOnChange hs obj).1.filterMap invErr) := by
  refine ⟨sharedOnChange_names hs obj, sharedOnChange_errs hs obj, rfl,
    fun e => rfl, fun e1 e2 es => rfl, ?_⟩
  unfold sharedResult
  rw [sharedOnChange_errs hs obj]

/- ===== C9 ===== -/

/-- Counterexample for C9 as stated: the first handler returns a non-nil
object with accessible metadata and an empty UID (no persistent identity)
over a previous nil object, yet the second handler is invoked with the
previous nil object, not the returned one. -/
theorem sharedOnChange_drops_uidless :
    (sharedOnChange hsC9 none).1.map (fun r => (r.input, r.ret)) =
      [(none, some ⟨true, [], 5⟩), (none, none)] := rfl

/-- Claim C9, amended: during SharedHandler.OnChange each handler is invoked
with the threaded object, which starts at the incoming object and, after
every invocation, is replaced by the handler's returned non-nil object
except when that object has accessible metadata and an empty UID — then the
previous object is kept (an identity-less object is dropped, not
preferred). -/
theorem sharedOnChange_threading (hs : List SHEntry) (obj : Option SObj) :
    chainedSpec obj (sharedOnChange hs obj).1 := by
  induction hs generalizing obj with
  | nil => trivial
  | cons h rest ih =>
    refine ⟨rfl, ?_⟩
    rw [← objUpdate_eq_preferReturned]
    exact ih (objUpdate (h.fn obj).1 obj)

/- ===== C1 ===== -/

/-- Counterexample for C1 as stated: a dispatch whose object is nil but whose
handler chain errors (with no onError callback to swallow it) returns before
the trigger-registry update, so UnregisterAndTrigger is never called. -/
theorem handle_abort_skips_unregister :
    (handle envAbort gvk0 (['a']) none false).trace.unregisterCalls = 0 ∧
    (handle envAbort gvk0 (['a']) none false).trace.handlersRan = true ∧
    (handle envAbort gvk0 (['a']) none false).retErr = some (.msg ['x']) := by
  refine ⟨rfl, rfl, rfl⟩

/-- Claim C1, amended: a trigger-driven dispatch never calls triggers.Trigger;
when the handler-chain error (after the error callback) aborts the dispatch,
neither registry call is made; otherwise a nil object yields exactly one
UnregisterAndTrigger and no Trigger, and a non-nil object yields no
UnregisterAndTrigger and exactly one Trigger iff the dispatch was not
trigger-driven. -/
theorem handle_registry_spec (env : HandleEnv) (gvk : GVK) (key : Str)
    (obj : Option RObj) (trigger : Bool) :
    (trigger = true → (handle env gvk key obj trigger).trace.triggerCalls = 0) ∧
    (chainAborts env = true →
      (handle env gvk key obj trigger).trace.unregisterCalls = 0 ∧
      (handle env gvk key obj trigger).trace.triggerCalls = 0) ∧
    (chainAborts env = false →
      (obj = none →
        (handle env gvk key obj trigger).trace.unregisterCalls = 1 ∧
        (handle env gvk key obj trigger).trace.triggerCalls = 0) ∧
      (∀ o, obj = some o →
        (handle env gvk key obj trigger).trace.unregisterCalls = 0 ∧
        (handle env gvk key obj trigger).trace.triggerCalls =
          (if trigger then 0 else 1))) := by
  have htail : ∀ unreg fan : Nat,
      (handleFinish env gvk key unreg fan).trace.unregisterCalls = unreg ∧
      (handleFinish env gvk key unreg fan).trace.triggerCalls = fan := by
    intro unreg fan
    unfold handleFinish
    split
    · split <;> exact ⟨rfl, rfl⟩
    · exact ⟨rfl, rfl⟩
  have htail2 : (handleTail env gvk key obj trigger).trace.unregisterCalls =
        unregCount obj ∧
      (handleTail env gvk key obj trigger).trace.triggerCalls =
        fanCount obj trigger := by
    unfold handleTail
    split
    · split
      · split
        · exact ⟨rfl, rfl⟩
        · exact htail _ _
      · exact htail _ _
    · exact ⟨rfl, rfl⟩
  have hmain : chainAborts env = false →
      (handle env gvk key obj trigger) = handleTail env gvk key obj trigger := by
    intro ha
    unfold chainAborts at ha
    unfold handle
    split
    · rename_i hh
      rw [hh, Bool.true_and] at ha
      split
      · rename_i e heq
        rw [heq] at ha
        have ha2 : (handleError env (some e)).isSome = false := ha
        split
        · rename_i e2 heq2
          rw [heq2] at ha2
          simp at ha2
        · rfl
      · rfl
    · rfl
  have habort : chainAborts env = true →
      (handle env gvk key obj trigger).trace = ⟨0, 0, none, true⟩ := by
    intro ha
    unfold chainAborts at ha
    unfold handle
    split
    · rename_i hh
      rw [hh, Bool.true_and] at ha
      split
      · rename_i e heq
        rw [heq] at ha
        have ha2 : (handleError env (some e)).isSome = true := ha
        split
        · rfl
        · rename_i heq2
          rw [heq2] at ha2
          simp at ha2
      · rename_i heq
        rw [heq] at ha
        have ha2 : false = true := ha
        exact Bool.noConfusion ha2
    · rename_i hh
      rw [Bool.not_eq_true] at hh
      rw [hh, Bool.false_and] at ha
      simp at ha
  refine ⟨?_, ?_, ?_⟩
  · intro ht
    by_cases ha : chainAborts env
    · rw [habort ha]
    · rw [hmain (by simpa using ha), htail2.2, ht]
      unfold fanCount
      by_cases ho : obj = none <;> simp [ho]
  · intro ha
    rw [habort ha]
    exact ⟨rfl, rfl⟩
  · intro ha
    constructor
    · intro ho
      rw [hmain ha, htail2.1, htail2.2]
      unfold unregCount fanCount
      simp [ho]
    · intro o ho
      rw [hmain ha, htail2.1, htail2.2]
      unfold unregCount fanCount
      simp [ho]
/-- Witness for C1 with no handler error and a nil object: exactly one
UnregisterAndTrigger, no Trigger fan-out. -/
theorem handle_registry_spec_witness :
    (handle envBenign gvk0 (['a']) none false).trace.unregisterCalls = 1 ∧
    (handle envBenign gvk0 (['a']) none false).trace.triggerCalls = 0 :=
  ((handle_registry_spec envBenign gvk0 (['a']) none false).2.2 (by decide)).1 rfl

/- ===== C2 ===== -/

/-- Claim C2: onChange consults checkDelay exactly for keys bearing neither
the trigger nor the replay marker; the gate keeps one token bucket per
(gvk, key) with refill rate 1/5 = 0.2 tokens per second and burst 10,
creating it lazily and updating it in place; a key already in the waiting set
yields false with no state change and no new backoff; a reservation with
positive delay adds the key to the waiting set, yields false and schedules
one detached timer whose firing removes the key from the waiting set and
calls Backend.Trigger(gvk, replay-prefixed key, 0); and a blocked dispatch
returns the incoming object with a nil error, constructing no request and
running no handlers. -/
theorem checkDelay_gate_spec :
    (∀ key, consultsGate key =
      (!(startsWith key triggerMark) && !(startsWith key replayMark))) ∧
    (∀ env s gvk key obj now,
      (onChange env s gvk key obj now).gateConsulted = consultsGate key) ∧
    ((1 : ℚ) / 5 = 0.2 ∧ (newLimiter (1 / 5) 10).limit = 1 / 5 ∧
      (newLimiter (1 / 5) 10).burst = 10) ∧
    (∀ s gvk key now, (⟨key, gvk⟩ : LKey) ∉ s.waiting →
      alookup s.limiters ⟨key, gvk⟩ = none →
      alookup (checkDelay s gvk key now).2.1.limiters ⟨key, gvk⟩ =
        some ((newLimiter (1 / 5) 10).reserveDelay now).2) ∧
    (∀ s gvk key now l, (⟨key, gvk⟩ : LKey) ∉ s.waiting →
      alookup s.limiters ⟨key, gvk⟩ = some l →
      alookup (checkDelay s gvk key now).2.1.limiters ⟨key, gvk⟩ =
        some (l.reserveDelay now).2) ∧
    (∀ s gvk key now, (⟨key, gvk⟩ : LKey) ∈ s.waiting →
      checkDelay s gvk key now = (false, s, none)) ∧
    (∀ s gvk key now d l2, (⟨key, gvk⟩ : LKey) ∉ s.waiting →
      ((alookup s.limiters ⟨key, gvk⟩).getD (newLimiter (1 / 5) 10)).reserveDelay now =
        (d, l2) →
      0 < d →
      checkDelay s gvk key now =
        (false, ⟨aupdate s.limiters ⟨key, gvk⟩ l2, ⟨key, gvk⟩ :: s.waiting⟩,
          some (d, ⟨key, gvk⟩)) ∧
      backoffFire ⟨aupdate s.limiters ⟨key, gvk⟩ l2, ⟨key, gvk⟩ :: s.waiting⟩ ⟨key, gvk⟩ =
        (⟨aupdate s.limiters ⟨key, gvk⟩ l2, s.waiting⟩, ⟨gvk, replayMark ++ key, 0⟩)) ∧
    (∀ env s gvk key obj now, consultsGate key = true →
      (checkDelay s gvk (decodeKey key).2.2 now).1 = false →
      (onChange env s gvk key obj now).retObj = obj ∧
      (onChange env s gvk key obj now).retErr = none ∧
      (onChange env s gvk key obj now).request = none ∧
      (onChange env s gvk key obj now).trace.handlersRan = false) := by
  refine ⟨?_, ?_, ⟨by norm_num, rfl, rfl⟩, ?_, ?_, ?_, ?_, ?_⟩
  · intro key
    unfold consultsGate decodeKey dropMark
    cases h1 : startsWith key triggerMark with
    | true =>
      cases h2 : startsWith (key.drop triggerMark.length) replayMark <;>
        simp [h1, h2]
    | false =>
      cases h2 : startsWith key replayMark <;> simp [h1, h2]
  · intro env s gvk key obj now
    unfold onChange consultsGate
    dsimp only
    split <;> first
      | rfl
      | (split <;> first
          | rfl
          | (split <;> first
              | rfl
              | (split <;> rfl)))
  · intro s gvk key now hw hl
    unfold checkDelay
    rw [if_neg hw, hl]
    simp only [Option.getD_none]
    split <;> exact alookup_aupdate _ _ _
  · intro s gvk key now l hw hl
    unfold checkDelay
    rw [if_neg hw, hl]
    simp only [Option.getD_some]
    split <;> exact alookup_aupdate _ _ _
  · intro s gvk key now hw
    unfold checkDelay
    rw [if_pos hw]
  · intro s gvk key now d l2 hw hr hd
    constructor
    · unfold checkDelay
      rw [if_neg hw]
      simp only [hr]
      simp [hd]
    · unfold backoffFire
      have h2 : List.filter (fun k => !(decide (k = (⟨key, gvk⟩ : LKey)))) s.waiting =
          s.waiting := by
        rw [List.filter_eq_self]
        intro a ha
        have hne : a ≠ (⟨key, gvk⟩ : LKey) := fun he => hw (he ▸ ha)
        simp [hne]
      simp [h2]
  · intro env s gvk key obj now hg hb
    have hgate : (!(decodeKey key).2.1 && !(decodeKey key).1) = true := hg
    unfold onChange
    simp only [hgate, Bool.true_and, if_true, hb]
    exact ⟨rfl, rfl, rfl, rfl⟩

/-- Witness for C2: a key already in the waiting set is rejected with no
state change and nothing scheduled. -/
theorem checkDelay_gate_spec_witness :
    checkDelay ⟨[], [⟨['a'], gvk0⟩]⟩ gvk0 (['a']) 0 =
      (false, ⟨[], [⟨['a'], gvk0⟩]⟩, none) :=
  checkDelay_gate_spec.2.2.2.2.2.1 ⟨[], [⟨['a'], gvk0⟩]⟩ gvk0 (['a']) 0 (by decide)

/- ===== C6 ===== -/

/-- Every onChange dispatch either constructs no request, or the request's
object is the fresh copy the backend Get found, or (on not-found) the
incoming event's object. -/
theorem onChange_request_cases (env : OnChangeEnv) (s : HSState) (gvk : GVK)
    (key : Str) (obj : Option RObj) (now : ℚ) :
    (onChange env s gvk key obj now).request = none ∨
    (∃ o, env.backendGet = RGet.found o ∧
      (onChange env s gvk key obj now).request = some (some o, (decodeKey key).1)) ∨
    (env.backendGet = RGet.notFound ∧
      (onChange env s gvk key obj now).request = some (obj, (decodeKey key).1)) := by
  unfold onChange
  dsimp only
  split <;> split <;>
    first
    | exact Or.inl rfl
    | (split <;>
        first
        | exact Or.inl rfl
        | (split <;>
            first
            | exact Or.inl rfl
            | (rename_i o hget; exact Or.inr (Or.inl ⟨o, hget, rfl⟩))
            | (rename_i hget; exact Or.inr (Or.inr ⟨hget, rfl⟩))))

/-- Counterexample for C6 as stated: the fresh backend Get reports not-found,
yet because the incoming event carried an informer-side object, the
constructed Request.Object is that object, not nil. -/
theorem onChange_retains_informer_object :
    (onChange envOCnf hs0 gvk0 (['a']) (some ⟨7⟩) 0).request = some (some ⟨7⟩, false) ∧
    envOCnf.backendGet = RGet.notFound := by
  constructor
  · have hcd : (checkDelay hs0 gvk0 (['a']) 0).1 = true := by
      unfold checkDelay hs0 newLimiter Limiter.reserveDelay alookup
      norm_num
    have hd : decodeKey (['a']) = (false, false, ['a']) := by decide
    unfold onChange
    dsimp only
    simp only [hd, Bool.not_false, Bool.and_true, Bool.true_and, if_true, hcd,
      Bool.not_true, Bool.and_false, Bool.false_eq_true, if_false]
    rfl
  · rfl

/-- Claim C6, amended: in every onChange dispatch that constructs a request,
the request's object is nil iff the fresh backend Get reported not-found AND
the incoming event carried no object (on not-found the event's informer-side
object is retained). -/
theorem onChange_requestObject (env : OnChangeEnv) (s : HSState) (gvk : GVK)
    (key : Str) (obj : Option RObj) (now : ℚ) (ro : Option RObj) (ft : Bool)
    (h : (onChange env s gvk key obj now).request = some (ro, ft)) :
    ro = none ↔ env.backendGet = RGet.notFound ∧ obj = none := by
  rcases onChange_request_cases env s gvk key obj now with hc | ⟨o, hget, hc⟩ | ⟨hget, hc⟩
  · rw [hc] at h
    exact absurd h (by simp)
  · rw [hc] at h
    simp only [Option.some.injEq, Prod.mk.injEq] at h
    rw [← h.1]
    simp [hget]
  · rw [hc] at h
    simp only [Option.some.injEq, Prod.mk.injEq] at h
    rw [← h.1]
    simp [hget]

/-- Witness for C6 at a dispatch whose fresh Get finds the object: the
request object is non-nil and the equivalence holds. -/
theorem onChange_requestObject_witness :
    (some (⟨3⟩ : RObj) : Option RObj) = none ↔
      envOCfound.backendGet = RGet.notFound ∧ (none : Option RObj) = none :=
  onChange_requestObject envOCfound hs0 gvk0 (['a']) none 0 (some ⟨3⟩) false (by
    have hcd : (checkDelay hs0 gvk0 (['a']) 0).1 = true := by
      unfold checkDelay hs0 newLimiter Limiter.reserveDelay alookup
      norm_num
    have hd : decodeKey (['a']) = (false, false, ['a']) := by decide
    unfold onChange
    dsimp only
    simp only [hd, Bool.not_false, Bool.and_true, Bool.true_and, if_true, hcd,
      Bool.not_true, Bool.and_false, Bool.false_eq_true, if_false]
    rfl)
